import Mathlib

/-!
Verification of the openclaw-cloudflare plugin core against its specification.

The development shallowly embeds the two subsystems the spec covers:

* the HTTP handler registered by the plugin (src/index.ts), which strips and
  re-derives the identity headers around Cloudflare Access JWT verification;
* the cloudflared process supervisor (src/tunnel/cloudflared.ts): spawn
  configuration, output-line collection and connector-id scanning, the
  three-way readiness race, and the stop (graceful/forceful shutdown) logic.

The Access token verifier (src/tunnel/access.ts) and the exposure
orchestrator (src/tunnel/exposure.ts) are not present in the repository
snapshot; they are modelled from the specification text, as marked in their
doc comments.
-/

/-! ## JavaScript string primitives used by the source -/

/-- Whitespace class used by the embedding for the JS trim operation and the
regex whitespace class: space, tab, newline, carriage return, vertical tab,
form feed. -/
def isSpaceCh (c : Char) : Bool :=
  c = ' ' || c = '\t' || c = '\n' || c = '\r' || c = '\x0b' || c = '\x0c'

/-- Trim model over a character list: drop leading and trailing whitespace. -/
def jsTrimList (cs : List Char) : List Char :=
  ((cs.dropWhile isSpaceCh).reverse.dropWhile isSpaceCh).reverse

/-- Embedding of the JS String.prototype.trim used on each output line. -/
def jsTrim (s : String) : String :=
  ⟨jsTrimList s.data⟩

/-- Split a character list on a separator character, as JS String.split does
(adjacent separators yield empty pieces). -/
def splitChar (sep : Char) : List Char → List (List Char)
  | [] => [[]]
  | c :: cs =>
    let r := splitChar sep cs
    if c = sep then [] :: r
    else
      match r with
      | [] => [[c]]
      | h :: t => (c :: h) :: t

/-- Lines extracted from one output chunk, as in collectOutput in
src/tunnel/cloudflared.ts: split on newline, trim each piece, drop the
pieces that are empty (the filter(Boolean) step). -/
def chunkLines (chunk : String) : List String :=
  ((splitChar '\n' chunk.data).map jsTrimList).filterMap
    (fun cs => if cs = [] then none else some ⟨cs⟩)

/-! ## Connector-id line scanner

Embedding of the regex
  Registered tunnel connection\s+connectorID=([a-f0-9-]+)  (case-insensitive)
matched with String.prototype.match (leftmost match, capture group 1). -/

/-- Character class of the capture group, with the case-insensitive flag:
hex digits in either case, decimal digits, and the dash. -/
def isHexDashCh (c : Char) : Bool :=
  ('a' ≤ c && c ≤ 'f') || ('A' ≤ c && c ≤ 'F') || c.isDigit || c = '-'

/-- Case-insensitive literal match: consume the pattern characters from the
front of the input, returning the rest on success. -/
def matchLitCI : List Char → List Char → Option (List Char)
  | [], rest => some rest
  | _ :: _, [] => none
  | p :: ps, c :: cs => if p.toLower = c.toLower then matchLitCI ps cs else none

/-- Consume one-or-more whitespace characters (the regex whitespace-plus). -/
def matchSpaces1 : List Char → Option (List Char)
  | [] => none
  | c :: cs => if isSpaceCh c then some (cs.dropWhile isSpaceCh) else none

/-- Attempt the whole regex anchored at the current position; returns the
capture group (the maximal nonempty run of hex-or-dash characters after the
connectorID= literal) on success. -/
def matchRegAt (cs : List Char) : Option (List Char) :=
  match matchLitCI "Registered tunnel connection".data cs with
  | none => none
  | some r1 =>
    match matchSpaces1 r1 with
    | none => none
    | some r2 =>
      match matchLitCI "connectorID=".data r2 with
      | none => none
      | some r3 =>
        let cap := r3.takeWhile isHexDashCh
        if cap = [] then none else some cap

/-- Leftmost regex match over a character list. -/
def findReg : List Char → Option (List Char)
  | [] => none
  | cs@(_ :: rest) =>
    match matchRegAt cs with
    | some cap => some cap
    | none => findReg rest

/-- Connector id extracted from one output line, or none when the line does
not match the registration pattern. -/
def extractId (line : String) : Option String :=
  (findReg line.data).map (fun cs => ⟨cs⟩)

/-! ## HTTP request handler (src/index.ts)

The handler mutates the Node request header object. Headers are embedded as
an association list from lowercased header names to values; a value is
either a single string or an array of strings, matching the Node typing
string-or-string-array. Lookup takes the first entry for a key; assignment
replaces all entries for the key; deletion removes them. -/

/-- Node header value: a single string or an array of strings. -/
inductive HVal where
  | one : String → HVal
  | many : List String → HVal
deriving DecidableEq, Repr

/-- Request headers as an association list. -/
abbrev Headers := List (String × HVal)

/-- Header lookup: first entry with the key, as in the JS object read. -/
def getHeader : Headers → String → Option HVal
  | [], _ => none
  | p :: t, k => if p.1 = k then some p.2 else getHeader t k

/-- Header deletion: the JS delete statement removes every entry for the
key. -/
def deleteHeader : Headers → String → Headers
  | [], _ => []
  | p :: t, k => if p.1 = k then deleteHeader t k else p :: deleteHeader t k

/-- Header assignment: the JS write replaces the value bound to the key. -/
def setHeader (h : Headers) (k : String) (v : HVal) : Headers :=
  (k, v) :: deleteHeader h k

/-- Identity header carrying the verified user email. -/
def emailHeaderKey : String := "x-openclaw-user-email"

/-- Identity header naming the authentication source. -/
def authSourceHeaderKey : String := "x-openclaw-auth-source"

/-- Header carrying the Cloudflare Access JWT. -/
def jwtHeaderKey : String := "cf-access-jwt-assertion"

/-- The two delete statements at the top of the handler: remove any pre-set
identity headers before anything else runs. -/
def stripIdentityHeaders (h : Headers) : Headers :=
  deleteHeader (deleteHeader h emailHeaderKey) authSourceHeaderKey

/-- Token extraction from the JWT header value, embedding
Array.isArray(jwtHeader) ? jwtHeader[0] : jwtHeader followed by the
JS falsiness test (undefined or the empty string are both rejected). -/
def jsHeaderToken : Option HVal → Option String
  | none => none
  | some (HVal.one s) => if s = "" then none else some s
  | some (HVal.many l) =>
    match l.head? with
    | none => none
    | some s => if s = "" then none else some s

/-- Verified identity: the object returned by the Access verifier. -/
structure Identity where
  email : String
deriving DecidableEq, Repr

/-- Result of one handler invocation: the final request headers, and the
boolean the handler returned (whether it consumed the request). -/
structure HandlerOut where
  headers : Headers
  consumed : Bool
deriving DecidableEq

/-- Embedding of the HTTP handler registered in src/index.ts: strip the two
identity headers, read the JWT header, return false when no token; verify,
set identity headers on success; always return false. The verifier is a
function argument, as the handler closes over it. -/
def handleAccessRequest (verify : String → Option Identity) (req : Headers) :
    HandlerOut :=
  let req1 := stripIdentityHeaders req
  match jsHeaderToken (getHeader req1 jwtHeaderKey) with
  | none => ⟨req1, false⟩
  | some t =>
    match verify t with
    | some u =>
      ⟨setHeader (setHeader req1 emailHeaderKey (HVal.one u.email))
          authSourceHeaderKey (HVal.one "cloudflare-access"), false⟩
    | none => ⟨req1, false⟩

/-- Embedding of the earlier handler variant embedded in CHANGELOG.md, where
the verifier is created lazily by the background service and may still be
absent when a request arrives: after stripping, a missing verifier makes the
handler return false at once. -/
def handleAccessRequestLazy (verifier : Option (String → Option Identity))
    (req : Headers) : HandlerOut :=
  let req1 := stripIdentityHeaders req
  match verifier with
  | none => ⟨req1, false⟩
  | some verify =>
    match jsHeaderToken (getHeader req1 jwtHeaderKey) with
    | none => ⟨req1, false⟩
    | some t =>
      match verify t with
      | some u =>
        ⟨setHeader (setHeader req1 emailHeaderKey (HVal.one u.email))
            authSourceHeaderKey (HVal.one "cloudflare-access"), false⟩
      | none => ⟨req1, false⟩

/-! ## Connector supervisor (src/tunnel/cloudflared.ts)

The startCloudflaredTunnel function spawns cloudflared, collects trimmed
output lines, scans them for the registration pattern, and races readiness
(a 100 ms poll on the connectorId variable) against child exit and the
timeout. The embedding models the part after the spawn as a fold over the
time-ordered sequence of externally visible events: output chunks, the exit
event, poll ticks, and the timeout firing. -/

/-- Spawn configuration built by startCloudflaredTunnel: argument list and
the environment entries added on top of the inherited process environment. -/
structure SpawnCfg where
  args : List String
  envExtra : List (String × String)
deriving DecidableEq

/-- Fixed argument list passed to the cloudflared binary. -/
def tunnelArgs : List String := ["tunnel", "run"]

/-- Spawn configuration as a function of the secret tunnel token: the fixed
arguments, and the TUNNEL_TOKEN environment variable carrying the token. -/
def tunnelSpawnCfg (token : String) : SpawnCfg :=
  ⟨tunnelArgs, [("TUNNEL_TOKEN", token)]⟩

/-- Effective timeout: opts.timeoutMs with the 30 second default. -/
def tunnelTimeoutMs (optTimeout : Option Nat) : Nat :=
  optTimeout.getD 30000

/-- Mutable state of a running start invocation: the collected log lines
(the array named stderr in the source) and the last parsed connector id. -/
structure RunState where
  logLines : List String
  connectorId : Option String
deriving DecidableEq, Repr

/-- State at spawn time: empty log, no connector id. -/
def initRunState : RunState := ⟨[], none⟩

/-- Data-event callback installed by collectOutput: split the chunk into
trimmed nonempty lines, append them all to the log, and for each line that
matches the registration pattern overwrite connectorId with its capture. -/
def collectChunk (s : RunState) (chunk : String) : RunState :=
  let lines := chunkLines chunk
  { logLines := s.logLines ++ lines
    connectorId :=
      lines.foldl
        (fun acc l =>
          match extractId l with
          | some i => some i
          | none => acc)
        s.connectorId }

/-- Externally visible events driving the readiness race, in time order:
an output chunk on either stream, the child exit event (code and signal),
one tick of the 100 ms readiness poll, and the timeout timer firing. -/
inductive TEvent where
  | data (chunk : String)
  | exitEv (code : Option Int) (signal : Option String)
  | poll
  | timeoutEv
deriving DecidableEq, Repr

/-- Message of the exit-before-registration rejection, embedding the JS
template: code rendered as a number or the word null, and a slash-signal
suffix only for a truthy (nonempty) signal string. -/
def exitMsg (code : Option Int) (signal : Option String) : String :=
  "cloudflared exited before tunnel registered (" ++
    (match code with
     | some n => toString n
     | none => "null") ++
    (match signal with
     | some sg => if sg = "" then "" else "/" ++ sg
     | none => "") ++ ")"

/-- Message of the timeout rejection. -/
def timeoutMsg : String := "cloudflared tunnel did not register within timeout"

/-- Settlement of the race, with the run state captured at that moment. -/
inductive TOutcome where
  | resolved (connectorId : Option String) (logLines : List String)
  | exitErr (msg : String) (logLines : List String)
  | timeoutErr (logLines : List String)
deriving DecidableEq, Repr

/-- Whether one event settles the race from the given state: a poll tick
resolves when connectorId is set; the exit event and the timeout always
reject; data events never settle by themselves. -/
def settleEv (s : RunState) : TEvent → Option TOutcome
  | TEvent.data _ => none
  | TEvent.poll =>
    match s.connectorId with
    | some _ => some (TOutcome.resolved s.connectorId s.logLines)
    | none => none
  | TEvent.exitEv c sg => some (TOutcome.exitErr (exitMsg c sg) s.logLines)
  | TEvent.timeoutEv => some (TOutcome.timeoutErr s.logLines)

/-- State transition of one event: only data chunks change the state. -/
def stepEv (s : RunState) : TEvent → RunState
  | TEvent.data chunk => collectChunk s chunk
  | _ => s

/-- The readiness race: process events in time order; the first settling
event wins and later events are ignored (the losing race branches are
cancelled). Returns none while no event has settled the race. Lines that
may still be appended after settlement, while stop runs, do not change the
settled outcome. -/
def runRace (s : RunState) : List TEvent → Option TOutcome
  | [] => none
  | ev :: rest =>
    match settleEv s ev with
    | some o => some o
    | none => runRace (stepEv s ev) rest

/-- State accumulated over a list of events, none of which settled. -/
def stateAfter (s : RunState) (evs : List TEvent) : RunState :=
  evs.foldl stepEv s

/-- Decidable check that no event along the list settles the race. -/
def noSettle (s : RunState) : List TEvent → Bool
  | [] => true
  | ev :: rest => (settleEv s ev).isNone && noSettle (stepEv s ev) rest

/-- Suffix appended to a rejection message: newline plus the joined log
lines, or nothing when the log is empty. -/
def renderLogSuffix (log : List String) : String :=
  match log with
  | [] => ""
  | _ => "\n" ++ String.intercalate "\n" log

/-- Observable actions of one start invocation, in order. -/
inductive Act where
  | spawnChild
  | stopChild
  | raiseErr (msg : String)
deriving DecidableEq, Repr

/-- Action trace and result of startCloudflaredTunnel given a settled (or
still pending) race: on success, the handle data; on either failure, the
catch block first awaits stop() on the child and only then throws the error
message extended with the captured log lines. -/
def startCloudflared (evs : List TEvent) :
    List Act × Option (Option String × List String) :=
  match runRace initRunState evs with
  | some (TOutcome.resolved cid log) => ([Act.spawnChild], some (cid, log))
  | some (TOutcome.exitErr m log) =>
    ([Act.spawnChild, Act.stopChild, Act.raiseErr (m ++ renderLogSuffix log)], none)
  | some (TOutcome.timeoutErr log) =>
    ([Act.spawnChild, Act.stopChild,
      Act.raiseErr (timeoutMsg ++ renderLogSuffix log)], none)
  | none => ([Act.spawnChild], none)

/-! ## Shutdown: the stop closure (src/tunnel/cloudflared.ts lines 199-217)

stop() returns at once when child.killed is already true (a kill signal was
sent earlier); otherwise it sends SIGTERM and waits: if the exit event fires
within the 1500 ms grace period it resolves then, else the timer sends
SIGKILL and resolves immediately. The child is summarised by whether a kill
signal was already sent, whether the process already exited on its own
(an exited child fires no further exit event), and the time at which the
exit event fires after the SIGTERM, if it ever does. -/

/-- Grace period of the stop escalation, in milliseconds. -/
def stopGraceMs : Nat := 1500

/-- Child process summary at the moment stop() is invoked. exitAt is the
delay until the exit event fires once SIGTERM is sent (none when no exit
event will fire, in particular whenever the process already exited). -/
structure Child where
  killed : Bool
  exited : Bool
  exitAt : Option Nat
deriving DecidableEq, Repr

/-- Result of one stop() call: the signals sent in order, the time until the
returned promise resolves, and whether resolution was triggered by the exit
event (exit confirmed) rather than by the escalation timer. -/
structure StopResult where
  signals : List String
  resolveAtMs : Nat
  exitConfirmed : Bool
deriving DecidableEq, Repr

/-- Embedding of the stop closure. -/
def stopChildProcess (c : Child) : StopResult :=
  if c.killed then ⟨[], 0, false⟩
  else
    match c.exitAt with
    | some t =>
      if t < stopGraceMs then ⟨["SIGTERM"], t, true⟩
      else ⟨["SIGTERM", "SIGKILL"], stopGraceMs, false⟩
    | none => ⟨["SIGTERM", "SIGKILL"], stopGraceMs, false⟩

/-! ## Token verifier

Modelled from the spec: the repository snapshot does not contain
src/tunnel/access.ts (only its callers and mocks appear under src), so the
Key Cache and Token Verifier below follow sections 4.1 and 4.2 of the
specification. Fallible collaborators (JSON parsing of the decoded
segments, the cryptographic signature check, the JWKS network fetch) are
oracles passed in as total functions into Option or Bool, so every theorem
below holds for every behaviour of those collaborators. -/

/-- Base64url value of one character, or none for a character outside the
alphabet. -/
def b64urlVal (c : Char) : Option Nat :=
  if 'A' ≤ c ∧ c ≤ 'Z' then some (c.toNat - 65)
  else if 'a' ≤ c ∧ c ≤ 'z' then some (c.toNat - 97 + 26)
  else if '0' ≤ c ∧ c ≤ '9' then some (c.toNat - 48 + 52)
  else if c = '-' then some 62
  else if c = '_' then some 63
  else none

/-- Base64url decoding of a character list into bytes; none on a character
outside the alphabet or on an impossible length (length mod 4 equal 1). -/
def b64urlDecodeChars : List Char → Option (List Nat)
  | [] => some []
  | [_] => none
  | [a, b] => do
    let va ← b64urlVal a
    let vb ← b64urlVal b
    pure [(va * 4 + vb / 16) % 256]
  | [a, b, c] => do
    let va ← b64urlVal a
    let vb ← b64urlVal b
    let vc ← b64urlVal c
    pure [(va * 4 + vb / 16) % 256, (vb % 16 * 16 + vc / 4) % 256]
  | a :: b :: c :: d :: rest => do
    let va ← b64urlVal a
    let vb ← b64urlVal b
    let vc ← b64urlVal c
    let vd ← b64urlVal d
    let tail ← b64urlDecodeChars rest
    pure ([(va * 4 + vb / 16) % 256, (vb % 16 * 16 + vc / 4) % 256,
           (vc % 4 * 64 + vd) % 256] ++ tail)

/-- Base64url decoding of a string segment. -/
def b64urlDecode (s : String) : Option (List Nat) :=
  b64urlDecodeChars s.data

/-- Dot-separated segments of a compact token. -/
def splitTok (token : String) : List String :=
  (splitChar '.' token.data).map (fun cs => (⟨cs⟩ : String))

/-- Parsed token header fields used by verification. -/
structure TokenHeader where
  alg : String
  kid : String
deriving DecidableEq, Repr

/-- Parsed token payload claims used by verification; an absent aud claim is
the empty list. -/
structure TokenPayload where
  iss : String
  aud : List String
  exp : Int
  email : Option String
  sub : Option String
deriving DecidableEq, Repr

/-- Cached public key entry: key id and the algorithm family of the stored
key material. -/
structure CacheKey where
  kid : String
  alg : String
deriving DecidableEq, Repr

/-- Modelled from the spec: Key Cache state of section 3, with entries keyed
by key id, the fetch timestamp and the negative-cache cooldown deadline,
both in epoch milliseconds. -/
structure KeyCacheState where
  entries : List (String × CacheKey)
  lastFetchAt : Int
  missCooldownUntil : Int
deriving DecidableEq, Repr

/-- Normal refresh window: ten minutes. -/
def cacheRefreshMs : Int := 600000

/-- Rotation guard: minimal age before a miss may force a refresh. -/
def rotationGuardMs : Int := 5000

/-- Negative-cache cooldown window after a refresh that still misses. -/
def missCooldownMs : Int := 30000

/-- Entry lookup without refresh. -/
def lookupEntry (st : KeyCacheState) (kid : String) : Option CacheKey :=
  (st.entries.find? (fun p => p.1 = kid)).map Prod.snd

/-- Modelled from the spec: refresh decision of section 4.1 — refresh when
the last fetch is older than ten minutes, or when the requested key id is
absent, the rotation guard has passed and the miss cooldown has elapsed. -/
def shouldRefresh (st : KeyCacheState) (now : Int) (kid : String) : Bool :=
  decide (cacheRefreshMs < now - st.lastFetchAt) ||
    ((lookupEntry st kid).isNone &&
      decide (rotationGuardMs < now - st.lastFetchAt) &&
      decide (st.missCooldownUntil ≤ now))

/-- Modelled from the spec: cache lookup with the refresh policy of section
4.1. fetched is the JWKS fetch outcome (none models a network or parse
failure, which leaves the cache unchanged); a refresh replaces the entries
wholesale, and a refresh that still misses arms the cooldown. -/
def cacheLookup (fetched : Option (List (String × CacheKey)))
    (st : KeyCacheState) (now : Int) (kid : String) :
    Option CacheKey × KeyCacheState :=
  if shouldRefresh st now kid then
    match fetched with
    | none => (lookupEntry st kid, st)
    | some ks =>
      let st2 : KeyCacheState := ⟨ks, now, st.missCooldownUntil⟩
      match lookupEntry st2 kid with
      | some k => (some k, st2)
      | none => (none, { st2 with missCooldownUntil := now + missCooldownMs })
  else (lookupEntry st kid, st)

/-- Oracles for the fallible collaborators of the verifier: JSON parsing of
the decoded header and payload bytes, the cryptographic signature check
(signing input, signature bytes, resolved key), and the JWKS fetch result. -/
structure VerifyEnv where
  parseHeader : List Nat → Option TokenHeader
  parsePayload : List Nat → Option TokenPayload
  sigValid : String → List Nat → CacheKey → Bool
  fetchKeys : Option (List (String × CacheKey))

/-- Internal failure causes of the verifier, kept inspectable and collapsed
to null only at the public boundary. -/
inductive VerifyFail where
  | malformed
  | badEncoding
  | unsupportedAlg
  | unknownKey
  | algMismatch
  | badSignature
  | badIssuer
  | expired
  | badAudience
  | noEmail
deriving DecidableEq, Repr

/-- Audience claim check: vacuous without a configured audience, otherwise
the configured value must be contained in the aud claim. -/
def audOk (audience : Option String) (p : TokenPayload) : Bool :=
  match audience with
  | none => true
  | some a => p.aud.contains a

/-- Modelled from the spec: the Token Verifier algorithm of section 4.2 as a
result-typed function, step by step — three segments, base64url decoding,
header and payload parsing, supported algorithm, key resolution through the
cache, signature check with algorithm-family agreement, then issuer, strict
expiry and audience claims, and finally the email-or-subject identity. -/
def accessVerifyInner (env : VerifyEnv) (st : KeyCacheState)
    (teamDomain : String) (audience : Option String) (now : Int)
    (token : String) : Except VerifyFail Identity :=
  match splitTok token with
  | [s0, s1, s2] =>
    match b64urlDecode s0, b64urlDecode s1, b64urlDecode s2 with
    | some hBytes, some pBytes, some sigBytes =>
      match env.parseHeader hBytes with
      | none => Except.error VerifyFail.malformed
      | some hdr =>
        match env.parsePayload pBytes with
        | none => Except.error VerifyFail.malformed
        | some p =>
          if ¬ (hdr.alg = "RS256" ∨ hdr.alg = "ES256") then
            Except.error VerifyFail.unsupportedAlg
          else
            match (cacheLookup env.fetchKeys st now hdr.kid).1 with
            | none => Except.error VerifyFail.unknownKey
            | some key =>
              if key.alg = hdr.alg then
                if env.sigValid (s0 ++ "." ++ s1) sigBytes key then
                  if p.iss = "https://" ++ teamDomain ++ ".cloudflareaccess.com" then
                    if now < p.exp then
                      if audOk audience p then
                        match p.email with
                        | some e => Except.ok ⟨e⟩
                        | none =>
                          match p.sub with
                          | some e => Except.ok ⟨e⟩
                          | none => Except.error VerifyFail.noEmail
                      else Except.error VerifyFail.badAudience
                    else Except.error VerifyFail.expired
                  else Except.error VerifyFail.badIssuer
                else Except.error VerifyFail.badSignature
              else Except.error VerifyFail.algMismatch
    | _, _, _ => Except.error VerifyFail.badEncoding
  | _ => Except.error VerifyFail.malformed

/-- Modelled from the spec: the public verification boundary — every
internal failure collapses to none, success carries the complete identity. -/
def accessVerify (env : VerifyEnv) (st : KeyCacheState) (teamDomain : String)
    (audience : Option String) (now : Int) (token : String) :
    Option Identity :=
  match accessVerifyInner env st teamDomain audience now token with
  | Except.ok u => some u
  | Except.error _ => none

/-! ## Exposure orchestrator

Modelled from the spec: src/tunnel/exposure.ts is not in the repository
snapshot (only its test file appears), so startGatewayCloudflareExposure
follows section 4.5 of the specification, with message texts anchored to
the expectations of the surviving test file. -/

/-- Operating mode of the exposure feature. -/
inductive ExposureMode where
  | off
  | accessOnly
  | managed
deriving DecidableEq, Repr

/-- Handle produced by a successful supervisor start, as seen by the
orchestrator: connector id, captured log lines, and an identifier of the
stop closure belonging to this handle. -/
structure TunnelHandle where
  connectorId : Option String
  logLines : List String
  stopId : Nat
deriving DecidableEq, Repr

/-- Log output of one orchestrator invocation. -/
structure ExposureLog where
  infos : List String
  errors : List String
deriving DecidableEq, Repr

/-- Result of one orchestrator invocation: the stop function handed back to
the caller (identified by the handle it came from), the log output, and
whether the Connector Supervisor was invoked at all. -/
structure ExposureResult where
  stopFun : Option Nat
  log : ExposureLog
  invokedSupervisor : Bool
deriving DecidableEq, Repr

/-- Informational message of access-only mode. -/
def accessOnlyMsg : String :=
  "cloudflare access-only mode: assuming an external cloudflared connector"

/-- Error message of managed mode without a token. -/
def noTokenMsg : String := "cloudflare managed mode: no tunnel token provided"

/-- Informational message logged on supervisor success. -/
def managedOkMsg (cid : Option String) : String :=
  "cloudflared tunnel started connectorId=" ++ cid.getD "unknown"

/-- Modelled from the spec: the mode dispatch of section 4.5. The
supervisor is a function argument returning either a handle or the typed
error message; the orchestrator converts a supervisor error into a log
entry and a null result instead of letting it propagate. -/
def startGatewayCloudflareExposure
    (supervisor : String → Except String TunnelHandle)
    (mode : ExposureMode) (tunnelToken : Option String) : ExposureResult :=
  match mode with
  | ExposureMode.off => ⟨none, ⟨[], []⟩, false⟩
  | ExposureMode.accessOnly => ⟨none, ⟨[accessOnlyMsg], []⟩, false⟩
  | ExposureMode.managed =>
    match tunnelToken with
    | none => ⟨none, ⟨[], [noTokenMsg]⟩, false⟩
    | some tok =>
      match supervisor tok with
      | Except.ok h => ⟨some h.stopId, ⟨[managedOkMsg h.connectorId], []⟩, true⟩
      | Except.error e => ⟨none, ⟨[], [e]⟩, true⟩

/-! ## Concrete inputs used by witnesses and counterexamples -/

/-- First matching line of a chunk of output lines, per the claim wording. -/
def firstMatchId (lines : List String) : Option String :=
  (lines.filterMap extractId).head?

/-- Identifier of the last matching line of a chunk of output lines. -/
def lastMatchId (lines : List String) : Option String :=
  (lines.reverse.filterMap extractId).head?

/-- A registration line as cloudflared emits it. -/
def regLine0 : String := "Registered tunnel connection connectorID=abc-123"

/-- Two registration lines with distinct connector ids in one chunk. -/
def twoRegChunk : String :=
  "Registered tunnel connection connectorID=aaa\nRegistered tunnel connection connectorID=bbb"

/-- A request carrying spoofed identity headers next to a token. -/
def spoofedReq : Headers :=
  [(emailHeaderKey, HVal.one "spoofed@evil.example"),
   (authSourceHeaderKey, HVal.one "spoofed"),
   (jwtHeaderKey, HVal.one "sometoken")]

/-- A verifier that rejects every token. -/
def rejectAll : String → Option Identity := fun _ => none

/-- A concrete supervisor accepting one token and refusing the rest. -/
def supOneTok : String → Except String TunnelHandle := fun t =>
  if t = "tok-good" then Except.ok ⟨some "abc", [], 7⟩
  else Except.error "connection refused"

/-- A concrete oracle environment whose collaborators all fail. -/
def verifyEnvNull : VerifyEnv :=
  ⟨fun _ => none, fun _ => none, fun _ _ _ => false, none⟩

/-- The empty key cache at construction time. -/
def keyCacheEmpty : KeyCacheState := ⟨[], 0, 0⟩

/-! ## Header lemmas -/

theorem getHeader_deleteHeader_self (h : Headers) (k : String) :
    getHeader (deleteHeader h k) k = none := by
  induction h with
  | nil => rfl
  | cons p t ih =>
    by_cases hk : p.1 = k <;> simp [deleteHeader, getHeader, hk, ih]

theorem getHeader_deleteHeader_ne (h : Headers) (k1 k2 : String)
    (hne : k1 ≠ k2) : getHeader (deleteHeader h k2) k1 = getHeader h k1 := by
  have hne2 : ¬ k2 = k1 := fun hh => hne hh.symm
  induction h with
  | nil => rfl
  | cons p t ih =>
    by_cases h2 : p.1 = k2
    · have h1 : ¬ p.1 = k1 := by
        rw [h2]
        exact hne2
      simp [deleteHeader, getHeader, h1, h2, ih, hne2]
    · by_cases h1 : p.1 = k1 <;> simp [deleteHeader, getHeader, h1, h2, ih, hne]

theorem deleteHeader_idem (h : Headers) (k : String) :
    deleteHeader (deleteHeader h k) k = deleteHeader h k := by
  induction h with
  | nil => rfl
  | cons p t ih =>
    by_cases hk : p.1 = k <;> simp [deleteHeader, hk, ih]

theorem deleteHeader_comm (h : Headers) (k1 k2 : String) :
    deleteHeader (deleteHeader h k1) k2 = deleteHeader (deleteHeader h k2) k1 := by
  induction h with
  | nil => rfl
  | cons p t ih =>
    by_cases h1 : p.1 = k1 <;> by_cases h2 : p.1 = k2
    · have hk : k1 = k2 := h1 ▸ h2
      simp [deleteHeader, h1, h2, hk, ih]
    · have hk : ¬ k1 = k2 := fun he => h2 (he ▸ h1)
      simp [deleteHeader, h1, h2, hk, ih]
    · have hk : ¬ k2 = k1 := fun he => h1 (he ▸ h2)
      simp [deleteHeader, h1, h2, hk, ih]
    · simp [deleteHeader, h1, h2, ih]

theorem stripIdentityHeaders_idem (h : Headers) :
    stripIdentityHeaders (stripIdentityHeaders h) = stripIdentityHeaders h := by
  unfold stripIdentityHeaders
  rw [deleteHeader_comm (deleteHeader (deleteHeader h emailHeaderKey) authSourceHeaderKey)
        emailHeaderKey authSourceHeaderKey,
      deleteHeader_idem, deleteHeader_comm _ emailHeaderKey authSourceHeaderKey,
      deleteHeader_idem]

theorem getHeader_strip_email (h : Headers) :
    getHeader (stripIdentityHeaders h) emailHeaderKey = none := by
  unfold stripIdentityHeaders
  rw [getHeader_deleteHeader_ne _ _ _ (by decide), getHeader_deleteHeader_self]

theorem getHeader_strip_source (h : Headers) :
    getHeader (stripIdentityHeaders h) authSourceHeaderKey = none := by
  unfold stripIdentityHeaders
  rw [getHeader_deleteHeader_self]

/-! ## Claim C1 -/

/-- C1: for every inbound request, the pre-set identity headers are removed
before verification begins, regardless of whether a token is present; the
handler result is the same as on the request with those headers already
removed, so the final identity-header values never depend on client-supplied
values; and whenever the token is absent or verification fails, neither
identity header is set afterward. -/
theorem identity_headers_never_client_controlled
    (verify : String → Option Identity) (req : Headers) :
    handleAccessRequest verify req
      = handleAccessRequest verify (stripIdentityHeaders req) ∧
    ((∀ t, jsHeaderToken (getHeader (stripIdentityHeaders req) jwtHeaderKey)
          = some t → verify t = none) →
      getHeader (handleAccessRequest verify req).headers emailHeaderKey = none ∧
      getHeader (handleAccessRequest verify req).headers authSourceHeaderKey
        = none) := by
  constructor
  · simp only [handleAccessRequest, stripIdentityHeaders_idem]
  · intro hfail
    cases htok : jsHeaderToken (getHeader (stripIdentityHeaders req) jwtHeaderKey) with
    | none =>
      simp only [handleAccessRequest, htok]
      exact ⟨getHeader_strip_email req, getHeader_strip_source req⟩
    | some t =>
      have hv : verify t = none := hfail t htok
      simp only [handleAccessRequest, htok, hv]
      exact ⟨getHeader_strip_email req, getHeader_strip_source req⟩

/-- Witness for C1: a concrete spoofed request with a token the verifier
rejects ends with both identity headers absent, and handling it equals
handling its stripped form. -/
theorem identity_headers_never_client_controlled_witness :
    handleAccessRequest rejectAll spoofedReq
      = handleAccessRequest rejectAll (stripIdentityHeaders spoofedReq) ∧
    getHeader (handleAccessRequest rejectAll spoofedReq).headers emailHeaderKey
      = none ∧
    getHeader (handleAccessRequest rejectAll spoofedReq).headers
      authSourceHeaderKey = none := by
  have h := identity_headers_never_client_controlled rejectAll spoofedReq
  exact ⟨h.1, h.2 (fun t _ => rfl)⟩

/-! ## Claim C10 -/

/-- C10: for every request and every verification outcome — verifier not yet
active (lazy variant), no token present, verification success, verification
failure — the registered HTTP handler returns false: the plugin never
consumes the request. -/
theorem handler_never_consumes_request
    (verify : String → Option Identity)
    (verifierOpt : Option (String → Option Identity)) (req : Headers) :
    (handleAccessRequest verify req).consumed = false ∧
    (handleAccessRequestLazy verifierOpt req).consumed = false := by
  constructor
  · simp only [handleAccessRequest]
    split
    · rfl
    · split <;> rfl
  · simp only [handleAccessRequestLazy]
    split
    · rfl
    · split
      · rfl
      · split <;> rfl

/-! ## Claim C2 -/

/-- C2: the spawned process argument list is exactly the fixed startup
sequence tunnel run, independent of the secret token, so the token (not
itself one of those two fixed words) never appears among the arguments; the
token is supplied solely through the TUNNEL_TOKEN environment variable. -/
theorem tunnel_token_only_in_env (token : String) :
    (tunnelSpawnCfg token).args = ["tunnel", "run"] ∧
    (∀ t2 : String, (tunnelSpawnCfg t2).args = (tunnelSpawnCfg token).args) ∧
    ((tunnelSpawnCfg token).envExtra.find?
        (fun p => p.1 = "TUNNEL_TOKEN")).map Prod.snd = some token ∧
    (token ∉ tunnelArgs → token ∉ (tunnelSpawnCfg token).args) := by
  refine ⟨rfl, fun _ => rfl, rfl, ?_⟩
  intro hnot
  simpa [tunnelSpawnCfg, tunnelArgs] using hnot

/-- Witness for C2: a concrete secret never shows up in the argument list
and is carried by the TUNNEL_TOKEN environment entry. -/
theorem tunnel_token_only_in_env_witness :
    (tunnelSpawnCfg "eyJhIjoic2VjcmV0In0").args = ["tunnel", "run"] ∧
    "eyJhIjoic2VjcmV0In0" ∉ (tunnelSpawnCfg "eyJhIjoic2VjcmV0In0").args ∧
    ((tunnelSpawnCfg "eyJhIjoic2VjcmV0In0").envExtra.find?
        (fun p => p.1 = "TUNNEL_TOKEN")).map Prod.snd
      = some "eyJhIjoic2VjcmV0In0" := by
  have h := tunnel_token_only_in_env "eyJhIjoic2VjcmV0In0"
  exact ⟨h.1, h.2.2.2 (by decide), h.2.2.1⟩

/-! ## Race lemmas -/

theorem stateAfter_cons (s : RunState) (ev : TEvent) (evs : List TEvent) :
    stateAfter s (ev :: evs) = stateAfter (stepEv s ev) evs := by
  simp [stateAfter]

theorem runRace_append (pre evs : List TEvent) (s : RunState)
    (h : noSettle s pre = true) :
    runRace s (pre ++ evs) = runRace (stateAfter s pre) evs := by
  induction pre generalizing s with
  | nil => simp [stateAfter]
  | cons ev rest ih =>
    simp only [noSettle, Bool.and_eq_true, Option.isNone_iff_eq_none] at h
    obtain ⟨h1, h2⟩ := h
    rw [List.cons_append, runRace, h1, stateAfter_cons]
    exact ih _ h2

/-! ## Claim C3 -/

/-- Counterexample for C3: a registration line is observed (the data event
sets connectorId) before the process exits and no timeout ever fires, yet
start rejects with the process-exited error, because the 100 ms readiness
poll had not sampled the flag before the exit event settled the race. Under
the claim this run should have resolved with a non-null connectorId. -/
theorem registration_before_exit_can_still_reject :
    runRace initRunState
        [TEvent.poll, TEvent.data regLine0, TEvent.exitEv (some 1) none,
         TEvent.poll]
      = some (TOutcome.exitErr (exitMsg (some 1) none) [regLine0]) ∧
    (collectChunk initRunState regLine0).connectorId = some "abc-123" ∧
    runRace initRunState
        [TEvent.poll, TEvent.data regLine0, TEvent.exitEv (some 1) none,
         TEvent.poll]
      ≠ some (TOutcome.resolved (some "abc-123") [regLine0]) := by
  refine ⟨by decide, by decide, by decide⟩

/-- C3 as amended: outcomes of start are decided by the first settling
signal, where readiness is sampled at poll ticks. If no earlier event
settled the race, then a poll tick finding connectorId set resolves start
with that non-null connectorId and the captured log lines; the exit event
settling first rejects with the process-exited error carrying the rendered
exit code/signal and the captured log lines (even if a registration line
was already observed but not yet sampled by a poll tick); the timeout
settling first rejects with the timeout error carrying the captured log
lines; and the default timeout is 30000 ms. -/
theorem tunnel_start_race_outcomes (pre rest : List TEvent)
    (c : Option Int) (sg : Option String)
    (h : noSettle initRunState pre = true) :
    (∀ cid, (stateAfter initRunState pre).connectorId = some cid →
        runRace initRunState (pre ++ TEvent.poll :: rest)
          = some (TOutcome.resolved (some cid)
              (stateAfter initRunState pre).logLines)) ∧
    runRace initRunState (pre ++ TEvent.exitEv c sg :: rest)
      = some (TOutcome.exitErr (exitMsg c sg)
          (stateAfter initRunState pre).logLines) ∧
    runRace initRunState (pre ++ TEvent.timeoutEv :: rest)
      = some (TOutcome.timeoutErr (stateAfter initRunState pre).logLines) ∧
    tunnelTimeoutMs none = 30000 := by
  refine ⟨?_, ?_, ?_, rfl⟩
  · intro cid hcid
    rw [runRace_append _ _ _ h, runRace, settleEv, hcid]
  · rw [runRace_append _ _ _ h, runRace, settleEv]
  · rw [runRace_append _ _ _ h, runRace, settleEv]

/-- Witness for the amended C3: one concrete run per outcome. -/
theorem tunnel_start_race_outcomes_witness :
    runRace initRunState [TEvent.data regLine0, TEvent.poll]
      = some (TOutcome.resolved (some "abc-123") [regLine0]) ∧
    runRace initRunState [TEvent.data regLine0, TEvent.exitEv (some 0) none]
      = some (TOutcome.exitErr (exitMsg (some 0) none) [regLine0]) ∧
    runRace initRunState [TEvent.data regLine0, TEvent.timeoutEv]
      = some (TOutcome.timeoutErr [regLine0]) := by
  have h := tunnel_start_race_outcomes [TEvent.data regLine0] [] (some 0) none
    (by decide)
  refine ⟨?_, ?_, ?_⟩
  · exact (h.1 "abc-123" (by decide)).trans (by decide)
  · exact h.2.1.trans (by decide)
  · exact h.2.2.1.trans (by decide)

/-! ## Claim C5 -/

/-- C5: on every failure path of start — process exited before registering,
or timeout — the supervisor performs its best-effort termination of the
child (the stop action) before the error is raised to the caller: the
action trace is exactly spawn, stop, raise, and no handle is returned. -/
theorem start_failure_stops_child_before_error (evs : List TEvent)
    (m : String) (log : List String) :
    (runRace initRunState evs = some (TOutcome.exitErr m log) →
      (startCloudflared evs).1
        = [Act.spawnChild, Act.stopChild,
           Act.raiseErr (m ++ renderLogSuffix log)] ∧
      (startCloudflared evs).2 = none) ∧
    (runRace initRunState evs = some (TOutcome.timeoutErr log) →
      (startCloudflared evs).1
        = [Act.spawnChild, Act.stopChild,
           Act.raiseErr (timeoutMsg ++ renderLogSuffix log)] ∧
      (startCloudflared evs).2 = none) := by
  constructor
  · intro h
    simp [startCloudflared, h]
  · intro h
    simp [startCloudflared, h]

/-- Witness for C5: a concrete run in which the child exits immediately,
applied to both failure shapes (the timeout shape via a timeout-first run). -/
theorem start_failure_stops_child_before_error_witness :
    ((startCloudflared [TEvent.exitEv none none]).1
        = [Act.spawnChild, Act.stopChild,
           Act.raiseErr (exitMsg none none ++ renderLogSuffix [])] ∧
      (startCloudflared [TEvent.exitEv none none]).2 = none) ∧
    ((startCloudflared [TEvent.timeoutEv]).1
        = [Act.spawnChild, Act.stopChild,
           Act.raiseErr (timeoutMsg ++ renderLogSuffix [])] ∧
      (startCloudflared [TEvent.timeoutEv]).2 = none) := by
  constructor
  · exact (start_failure_stops_child_before_error [TEvent.exitEv none none]
      (exitMsg none none) []).1 (by decide)
  · exact (start_failure_stops_child_before_error [TEvent.timeoutEv]
      (exitMsg none none) []).2 (by decide)

/-! ## Claim C6 -/

/-- Counterexample for C6: for a child that has already exited on its own
(no kill signal was ever sent, so the killed flag is false, and no further
exit event will fire), stop() is not a no-op — it sends SIGTERM and then
SIGKILL, resolves only after the full 1500 ms grace period, and resolves
without the exit event ever confirming the exit. The guard in the source
checks child.killed, which records that a signal was sent, not that the
process exited; and the escalation branch resolves immediately after
SIGKILL without waiting for exit confirmation. -/
theorem stop_not_noop_after_natural_exit :
    (Child.mk false true none).exited = true ∧
    stopChildProcess (Child.mk false true none)
      = ⟨["SIGTERM", "SIGKILL"], 1500, false⟩ ∧
    (stopChildProcess (Child.mk false true none)).signals ≠ [] ∧
    (stopChildProcess (Child.mk false true none)).exitConfirmed = false := by
  refine ⟨rfl, by decide, by decide, by decide⟩

/-- C6 as amended: stop() is an immediate no-op if a kill signal was already
sent (hence a second stop call is idempotent); otherwise it sends the
graceful SIGTERM and waits up to the fixed 1500 ms grace period: if the exit
event fires within it, stop resolves at that moment with the exit confirmed;
if not — including when the process already exited naturally, so no exit
event will fire — stop sends the forceful SIGKILL when the grace period
elapses and resolves immediately, without further exit confirmation. -/
theorem stop_signal_escalation (c : Child) :
    (c.killed = true → stopChildProcess c = ⟨[], 0, false⟩) ∧
    (c.killed = false → ∀ t, c.exitAt = some t → t < stopGraceMs →
        stopChildProcess c = ⟨["SIGTERM"], t, true⟩) ∧
    (c.killed = false →
      (c.exitAt = none ∨ ∃ t, c.exitAt = some t ∧ stopGraceMs ≤ t) →
        stopChildProcess c = ⟨["SIGTERM", "SIGKILL"], stopGraceMs, false⟩) := by
  refine ⟨?_, ?_, ?_⟩
  · intro hk
    simp [stopChildProcess, hk]
  · intro hk t ht hlt
    simp [stopChildProcess, hk, ht, hlt]
  · intro hk hcase
    rcases hcase with hnone | ⟨t, ht, hge⟩
    · simp [stopChildProcess, hk, hnone]
    · have : ¬ t < stopGraceMs := not_lt.mpr hge
      simp [stopChildProcess, hk, ht, this]

/-- Witness for the amended C6: the three behaviours at concrete children —
already-signalled, exits within grace, and unresponsive. -/
theorem stop_signal_escalation_witness :
    stopChildProcess (Child.mk true false none) = ⟨[], 0, false⟩ ∧
    stopChildProcess (Child.mk false false (some 200))
      = ⟨["SIGTERM"], 200, true⟩ ∧
    stopChildProcess (Child.mk false false none)
      = ⟨["SIGTERM", "SIGKILL"], stopGraceMs, false⟩ := by
  refine ⟨?_, ?_, ?_⟩
  · exact (stop_signal_escalation (Child.mk true false none)).1 rfl
  · exact (stop_signal_escalation (Child.mk false false (some 200))).2.1
      rfl 200 rfl (by decide)
  · exact (stop_signal_escalation (Child.mk false false none)).2.2
      rfl (Or.inl rfl)

/-! ## Claim C7 -/

/-- C7: the orchestrator mode dispatch — off returns null with no logging
and no supervisor invocation; access-only returns null after one
informational message and spawns nothing; managed without a token logs an
error and returns null without invoking the supervisor; managed with a
token invokes the supervisor and returns the handle's stop function on
success, while on supervisor failure it logs the error and returns null
instead of propagating it. -/
theorem exposure_mode_dispatch
    (sup : String → Except String TunnelHandle) (tok : Option String) :
    startGatewayCloudflareExposure sup ExposureMode.off tok
      = ⟨none, ⟨[], []⟩, false⟩ ∧
    startGatewayCloudflareExposure sup ExposureMode.accessOnly tok
      = ⟨none, ⟨[accessOnlyMsg], []⟩, false⟩ ∧
    startGatewayCloudflareExposure sup ExposureMode.managed none
      = ⟨none, ⟨[], [noTokenMsg]⟩, false⟩ ∧
    (∀ t h, tok = some t → sup t = Except.ok h →
        startGatewayCloudflareExposure sup ExposureMode.managed tok
          = ⟨some h.stopId, ⟨[managedOkMsg h.connectorId], []⟩, true⟩) ∧
    (∀ t e, tok = some t → sup t = Except.error e →
        startGatewayCloudflareExposure sup ExposureMode.managed tok
          = ⟨none, ⟨[], [e]⟩, true⟩) := by
  refine ⟨rfl, rfl, rfl, ?_, ?_⟩
  · intro t h htok hsup
    subst htok
    simp [startGatewayCloudflareExposure, hsup]
  · intro t e htok hsup
    subst htok
    simp [startGatewayCloudflareExposure, hsup]

/-- Witness for C7: the managed-mode success and failure branches at a
concrete supervisor. -/
theorem exposure_mode_dispatch_witness :
    startGatewayCloudflareExposure supOneTok ExposureMode.managed
        (some "tok-good")
      = ⟨some 7, ⟨[managedOkMsg (some "abc")], []⟩, true⟩ ∧
    startGatewayCloudflareExposure supOneTok ExposureMode.managed
        (some "tok-bad")
      = ⟨none, ⟨[], ["connection refused"]⟩, true⟩ := by
  constructor
  · exact (exposure_mode_dispatch supOneTok (some "tok-good")).2.2.2.1
      "tok-good" ⟨some "abc", [], 7⟩ rfl rfl
  · exact (exposure_mode_dispatch supOneTok (some "tok-bad")).2.2.2.2
      "tok-bad" "connection refused" rfl rfl

/-! ## Trim lemmas -/

theorem dropWhile_self_idem {α : Type} (p : α → Bool) (l : List α) :
    (l.dropWhile p).dropWhile p = l.dropWhile p := by
  induction l with
  | nil => rfl
  | cons a t ih =>
    by_cases hp : p a = true
    · simp [List.dropWhile_cons, hp, ih]
    · simp [List.dropWhile_cons, hp]

theorem exists_prefix_dropWhile {α : Type} (p : α → Bool) (l : List α) :
    ∃ t, l = t ++ l.dropWhile p := by
  induction l with
  | nil => exact ⟨[], rfl⟩
  | cons a t ih =>
    by_cases hp : p a = true
    · obtain ⟨u, hu⟩ := ih
      refine ⟨a :: u, ?_⟩
      rw [List.dropWhile_cons, if_pos hp, List.cons_append, ← hu]
    · exact ⟨[], by rw [List.dropWhile_cons, if_neg hp, List.nil_append]⟩

theorem length_dropWhile_le_own {α : Type} (p : α → Bool) (l : List α) :
    (l.dropWhile p).length ≤ l.length := by
  induction l with
  | nil => exact Nat.le_refl _
  | cons a t ih =>
    by_cases hp : p a = true
    · rw [List.dropWhile_cons, if_pos hp]
      exact Nat.le_trans ih (Nat.le_succ _)
    · rw [List.dropWhile_cons, if_neg hp]

theorem dropWhile_eq_self_head {α : Type} (p : α → Bool) (a : α) (t : List α)
    (h : (a :: t).dropWhile p = a :: t) : p a = false := by
  cases hpb : p a with
  | false => rfl
  | true =>
    rw [List.dropWhile_cons, if_pos hpb] at h
    have hlen := congrArg List.length h
    have hle := length_dropWhile_le_own p t
    rw [hlen] at hle
    simp at hle

theorem trimBack_keeps_front {α : Type} (p : α → Bool) (l : List α)
    (h : l.dropWhile p = l) :
    ((l.reverse.dropWhile p).reverse).dropWhile p
      = (l.reverse.dropWhile p).reverse := by
  obtain ⟨t, ht⟩ := exists_prefix_dropWhile p l.reverse
  cases hru : (l.reverse.dropWhile p).reverse with
  | nil => rfl
  | cons a w =>
    have hl : l = a :: (w ++ t.reverse) := by
      calc l = (t ++ l.reverse.dropWhile p).reverse := by
              rw [← ht, List.reverse_reverse]
        _ = (l.reverse.dropWhile p).reverse ++ t.reverse := by
              rw [List.reverse_append]
        _ = (a :: w) ++ t.reverse := by rw [hru]
        _ = a :: (w ++ t.reverse) := rfl
    have hpa : p a = false := by
      rw [hl] at h
      exact dropWhile_eq_self_head p a (w ++ t.reverse) h
    rw [List.dropWhile_cons]
    simp [hpa]

theorem jsTrimList_idem (cs : List Char) :
    jsTrimList (jsTrimList cs) = jsTrimList cs := by
  unfold jsTrimList
  rw [trimBack_keeps_front isSpaceCh (cs.dropWhile isSpaceCh)
      (dropWhile_self_idem isSpaceCh cs),
    List.reverse_reverse, dropWhile_self_idem]

theorem jsTrim_idem (s : String) : jsTrim (jsTrim s) = jsTrim s :=
  congrArg String.mk (jsTrimList_idem s.data)

/-! ## Claim C8 -/

theorem stateAfter_replicate_len (n : Nat) (s : RunState) :
    (stateAfter s (List.replicate n (TEvent.data "x"))).logLines.length
      = s.logLines.length + n := by
  induction n generalizing s with
  | zero => simp [stateAfter]
  | succ k ih =>
    rw [List.replicate_succ, stateAfter_cons, ih]
    have hx : chunkLines "x" = ["x"] := by decide
    simp [stepEv, collectChunk, hx]
    omega

/-- Counterexample for C8: the log buffer is not bounded — there is no fixed
bound that the buffer length respects over all possible process outputs; a
run emitting one nonempty line per chunk, enough times, exceeds any bound,
because the source pushes every line and never truncates. -/
theorem log_buffer_unbounded :
    ¬ ∃ B : Nat, ∀ evs : List TEvent,
        (stateAfter initRunState evs).logLines.length ≤ B := by
  rintro ⟨B, hB⟩
  have h := hB (List.replicate (B + 1) (TEvent.data "x"))
  rw [stateAfter_replicate_len] at h
  simp [initRunState] at h

/-- C8 as amended: every line appended to the log buffer from the combined
output streams is trimmed and non-empty, and chunk processing is pure
appending — but the buffer is unbounded, growing with the amount of output. -/
theorem log_lines_trimmed_nonempty (s : RunState) (chunk : String) :
    (collectChunk s chunk).logLines = s.logLines ++ chunkLines chunk ∧
    ∀ l ∈ chunkLines chunk, jsTrim l = l ∧ l ≠ "" := by
  refine ⟨rfl, ?_⟩
  intro l hl
  simp only [chunkLines, List.mem_filterMap, List.mem_map] at hl
  obtain ⟨cs, ⟨cs0, hmem, hcs⟩, hif⟩ := hl
  by_cases hnil : cs = []
  · rw [if_pos hnil] at hif
    exact absurd hif (by simp)
  · rw [if_neg hnil] at hif
    injection hif with hif
    subst hif
    subst hcs
    constructor
    · exact congrArg String.mk (jsTrimList_idem cs0)
    · intro hempty
      apply hnil
      simpa using congrArg String.data hempty

/-- Witness for the amended C8: a concrete chunk whose one surviving line is
trimmed and non-empty, appended to the buffer. -/
theorem log_lines_trimmed_nonempty_witness :
    (collectChunk initRunState "  hi \n\n").logLines
      = [] ++ chunkLines "  hi \n\n" ∧
    (jsTrim "hi" = "hi" ∧ "hi" ≠ "") := by
  have h := log_lines_trimmed_nonempty initRunState "  hi \n\n"
  exact ⟨h.1, h.2 "hi" (by decide)⟩

/-! ## Claim C9 -/

theorem foldl_scan_eq_lastMatch (lines : List String) (acc : Option String) :
    lines.foldl
        (fun a l =>
          match extractId l with
          | some i => some i
          | none => a) acc
      = (lastMatchId lines).or acc := by
  induction lines generalizing acc with
  | nil => rfl
  | cons l t ih =>
    rw [List.foldl_cons, ih]
    cases hl : extractId l with
    | none =>
      have hm : lastMatchId (l :: t) = lastMatchId t := by
        unfold lastMatchId
        rw [List.reverse_cons, List.filterMap_append]
        simp [hl]
      rw [hm]
    | some i =>
      have hm : lastMatchId (l :: t) = (lastMatchId t).or (some i) := by
        unfold lastMatchId
        rw [List.reverse_cons, List.filterMap_append]
        have h1 : [l].filterMap extractId = [i] := by simp [hl]
        rw [h1]
        cases hx : (t.reverse.filterMap extractId) with
        | nil => simp
        | cons x xs => simp
      rw [hm]
      cases lastMatchId t <;> rfl

/-- Counterexample for C9: a chunk holding two registration lines with
distinct identifiers. The resolved handle carries bbb, the identifier of the
last matching line, while the first matching line carries aaa — each match
overwrites connectorId, so the handle does not carry the identifier of the
first matching line as the claim states. -/
theorem handle_carries_last_match_not_first :
    runRace initRunState [TEvent.data twoRegChunk, TEvent.poll]
      = some (TOutcome.resolved (some "bbb")
          ["Registered tunnel connection connectorID=aaa",
           "Registered tunnel connection connectorID=bbb"]) ∧
    firstMatchId (chunkLines twoRegChunk) = some "aaa" ∧
    some "bbb" ≠ (some "aaa" : Option String) := by
  refine ⟨by decide, by decide, by decide⟩

/-- C9 as amended: every emitted line is scanned against the registration
pattern; each matching line overwrites connectorId, so after a chunk the
value is the identifier of the last matching line (or the previous value
when no line matches), and the first match makes connectorId non-null,
signalling readiness to the poll. -/
theorem scanner_last_match_wins (s : RunState) (chunk : String) :
    (collectChunk s chunk).connectorId
      = (lastMatchId (chunkLines chunk)).or s.connectorId ∧
    (firstMatchId (chunkLines chunk) ≠ none →
      (collectChunk s chunk).connectorId ≠ none) := by
  have h1 : (collectChunk s chunk).connectorId
      = (lastMatchId (chunkLines chunk)).or s.connectorId := by
    simp only [collectChunk]
    exact foldl_scan_eq_lastMatch (chunkLines chunk) s.connectorId
  refine ⟨h1, ?_⟩
  intro hfirst
  rw [h1]
  have hlast : lastMatchId (chunkLines chunk) ≠ none := by
    intro hl
    apply hfirst
    unfold lastMatchId at hl
    unfold firstMatchId
    rw [List.head?_eq_none_iff] at hl ⊢
    rw [List.filterMap_eq_nil_iff] at hl ⊢
    intro a ha
    exact hl a (List.mem_reverse.mpr ha)
  cases hx : lastMatchId (chunkLines chunk) with
  | none => exact absurd hx hlast
  | some i => simp [Option.or]

/-- Witness for the amended C9: the two-registration chunk instantiates both
conjuncts, with last-match overwrite visible. -/
theorem scanner_last_match_wins_witness :
    (collectChunk initRunState twoRegChunk).connectorId
      = (lastMatchId (chunkLines twoRegChunk)).or none ∧
    (collectChunk initRunState twoRegChunk).connectorId ≠ none := by
  have h := scanner_last_match_wins initRunState twoRegChunk
  exact ⟨h.1, h.2 (by decide)⟩

/-! ## Claim C4 -/

theorem accessVerify_some_iff (env : VerifyEnv) (st : KeyCacheState)
    (td : String) (aud : Option String) (now : Int) (token : String)
    (u : Identity) :
    accessVerify env st td aud now token = some u ↔
    accessVerifyInner env st td aud now token = Except.ok u := by
  unfold accessVerify
  cases h : accessVerifyInner env st td aud now token <;> simp

/-- C4: the verifier is a total function of the token, the cache state and
the oracle collaborators — failures are internal result values collapsed to
null at the boundary, never exceptions; for every malformed input class
(wrong segment count, invalid base64url, unsupported algorithm) the result
is null for every cache state; and success happens only when every
verification step passed, with the identity taken whole from the payload —
no partial identity exists. -/
theorem access_verify_never_raises (env : VerifyEnv) (st : KeyCacheState)
    (td : String) (aud : Option String) (now : Int) (token : String) :
    (∀ f, accessVerifyInner env st td aud now token = Except.error f →
        accessVerify env st td aud now token = none) ∧
    ((splitTok token).length ≠ 3 →
        accessVerify env st td aud now token = none) ∧
    (∀ s0 s1 s2, splitTok token = [s0, s1, s2] →
        b64urlDecode s0 = none ∨ b64urlDecode s1 = none ∨
          b64urlDecode s2 = none →
        accessVerify env st td aud now token = none) ∧
    (∀ s0 s1 s2 hb hdr, splitTok token = [s0, s1, s2] →
        b64urlDecode s0 = some hb → env.parseHeader hb = some hdr →
        ¬ (hdr.alg = "RS256" ∨ hdr.alg = "ES256") →
        accessVerify env st td aud now token = none) ∧
    (∀ u, accessVerify env st td aud now token = some u →
      ∃ s0 s1 s2 hb pb sb hdr p key,
        splitTok token = [s0, s1, s2] ∧
        b64urlDecode s0 = some hb ∧ b64urlDecode s1 = some pb ∧
        b64urlDecode s2 = some sb ∧
        env.parseHeader hb = some hdr ∧ env.parsePayload pb = some p ∧
        (hdr.alg = "RS256" ∨ hdr.alg = "ES256") ∧
        (cacheLookup env.fetchKeys st now hdr.kid).1 = some key ∧
        key.alg = hdr.alg ∧
        env.sigValid (s0 ++ "." ++ s1) sb key = true ∧
        p.iss = "https://" ++ td ++ ".cloudflareaccess.com" ∧
        now < p.exp ∧ audOk aud p = true ∧
        (p.email = some u.email ∨
          (p.email = none ∧ p.sub = some u.email))) := by
  refine ⟨?_, ?_, ?_, ?_, ?_⟩
  · intro f hf
    unfold accessVerify
    rw [hf]
  · intro hlen
    have hinner : ∃ f, accessVerifyInner env st td aud now token
        = Except.error f := by
      unfold accessVerifyInner
      split
      · rename_i s0 s1 s2 heq
        rw [heq] at hlen
        simp at hlen
      · exact ⟨VerifyFail.malformed, rfl⟩
    obtain ⟨f, hf⟩ := hinner
    unfold accessVerify
    rw [hf]
  · intro s0 s1 s2 hsp hdec
    rcases hdec with h0 | h1 | h2
    · simp [accessVerify, accessVerifyInner, hsp, h0]
    · cases hc0 : b64urlDecode s0 <;>
        simp [accessVerify, accessVerifyInner, hsp, hc0, h1]
    · cases hc0 : b64urlDecode s0 <;> cases hc1 : b64urlDecode s1 <;>
        simp [accessVerify, accessVerifyInner, hsp, hc0, hc1, h2]
  · intro s0 s1 s2 hb hdr hsp hc0 hparse halg
    cases hc1 : b64urlDecode s1 with
    | none => simp [accessVerify, accessVerifyInner, hsp, hc0, hc1]
    | some pb =>
      cases hc2 : b64urlDecode s2 with
      | none => simp [accessVerify, accessVerifyInner, hsp, hc0, hc1, hc2]
      | some sb =>
        cases hpp : env.parsePayload pb with
        | none =>
          simp [accessVerify, accessVerifyInner, hsp, hc0, hc1, hc2,
            hparse, hpp]
        | some p =>
          simp [accessVerify, accessVerifyInner, hsp, hc0, hc1, hc2,
            hparse, hpp, halg]
  · intro u h
    have hI : accessVerifyInner env st td aud now token = Except.ok u :=
      (accessVerify_some_iff env st td aud now token u).mp h
    unfold accessVerifyInner at hI
    split at hI
    · rename_i s0 s1 s2 hsp
      split at hI
      · rename_i hb pb sb hc0 hc1 hc2
        cases hph : env.parseHeader hb with
        | none => simp [hph] at hI
        | some hdr =>
          simp only [hph] at hI
          cases hpp : env.parsePayload pb with
          | none => simp [hpp] at hI
          | some p =>
            simp only [hpp] at hI
            split at hI
            · simp at hI
            · rename_i halgneg
              have halg : hdr.alg = "RS256" ∨ hdr.alg = "ES256" :=
                not_not.mp halgneg
              cases hck : (cacheLookup env.fetchKeys st now hdr.kid).1 with
              | none => simp [hck] at hI
              | some key =>
                simp only [hck] at hI
                split at hI
                · rename_i hka
                  split at hI
                  · rename_i hsig
                    split at hI
                    · rename_i hiss
                      split at hI
                      · rename_i hexp
                        split at hI
                        · rename_i haud
                          refine ⟨s0, s1, s2, hb, pb, sb, hdr, p, key,
                            hsp, hc0, hc1, hc2, hph, hpp, halg, hck, hka,
                            hsig, hiss, hexp, haud, ?_⟩
                          cases hem : p.email with
                          | some e =>
                            simp only [hem] at hI
                            simp at hI
                            left
                            rw [← hI]
                          | none =>
                            simp only [hem] at hI
                            cases hsub : p.sub with
                            | none => simp [hsub] at hI
                            | some e =>
                              simp only [hsub] at hI
                              simp at hI
                              right
                              exact ⟨rfl, by rw [← hI]⟩
                        · simp at hI
                      · simp at hI
                    · simp at hI
                  · simp at hI
                · simp at hI
      · simp at hI
    · simp at hI

/-- Witness for C4: two concrete malformed tokens against the empty cache
and all-failing oracles — a wrong segment count and an invalid base64url
segment — both verify to null. -/
theorem access_verify_never_raises_witness :
    accessVerify verifyEnvNull keyCacheEmpty "myteam" none 0 "not-a-jwt"
      = none ∧
    accessVerify verifyEnvNull keyCacheEmpty "myteam" none 0 "a.b!.c"
      = none := by
  constructor
  · exact (access_verify_never_raises verifyEnvNull keyCacheEmpty "myteam"
      none 0 "not-a-jwt").2.1 (by decide)
  · exact (access_verify_never_raises verifyEnvNull keyCacheEmpty "myteam"
      none 0 "a.b!.c").2.2.1 "a" "b!" "c" (by decide)
      (Or.inr (Or.inl (by decide)))
